import Mathlib

set_option maxRecDepth 20000
set_option maxHeartbeats 2000000

/-
Shallow embedding of the LUMEN medical-news pipeline (src/main.py, src/config.py).

Modelling conventions:
- Python strings are Lean `String`s; character-level work uses `List Char`
  (`String.data`).  Python `len` on a `str` counts code points, matching
  `List.length` on `String.data`.
- Python `float` similarity ratios and thresholds are modelled as `ℚ`
  (the configured threshold 0.8 becomes 4/5; all comparisons in the claims
  are far from the float-rounding boundary).
- Wall-clock times (cache file mtimes, `datetime.now()`) are `ℚ`, measured in
  days, so that the cache expiry comparison with `expiry_days` is direct.
- The MD5 cache key (`get_cache_key`) is modelled by an arbitrary function
  `keyOf : String → String` passed as a parameter: every theorem is proved
  for all key functions, hence in particular for MD5 hex digests.
- The network is modelled by a script `List ApiResponse`: one element per
  HTTP request that the retry loop of `get_ai_summary_async` issues.
- Python `\s` is modelled by `pyIsSpace` (ASCII whitespace); `str.lower` by
  `Char.toLower` (the titles involved are ASCII; Korean text has no case).
-/

/-! ## Configuration constants (src/config.py) -/

/-- config.CATEGORIES (src/config.py lines 51-57). -/
def CATEGORIES : List String :=
  ["기술/혁신", "규제/가이드라인", "연구/임상", "안전/품질", "교육/훈련"]

/-- Value of max_retries in config.AI_CONFIG (src/config.py line 74). -/
def AI_max_retries : Nat := 2

/-- Value of expiry_days in config.CACHE_CONFIG (src/config.py line 84), in days. -/
def CACHE_expiry_days : ℚ := 7

/-- Value of similarity_threshold in config.DEDUPLICATION_CONFIG, 0.8
    (src/config.py line 93), as the rational 4/5. -/
def similarity_threshold : ℚ := mkRat 4 5

/-! ## difflib.SequenceMatcher (used by calculate_similarity, src/main.py 416-418)

`SequenceMatcher(None, a, b).ratio()` with strings shorter than 200
characters (so the autojunk heuristic never fires and there is no junk):
`find_longest_match` is the classic longest-common-substring dynamic
programme with ties broken by smallest end position in `a`, then in `b`
(difflib updates its best block only on a strictly larger size while
scanning `i` ascending and, for each `i`, `j` ascending); the two
junk-extension loops are no-ops because a larger adjacent match inside the
window would contradict maximality.  `get_matching_blocks` recurses on the
regions before and after the chosen block; `ratio` is `2*M/T` where `M`
sums the block sizes and `T` is the total length (and 1 when `T = 0`). -/

/-- One row of the longest-common-suffix table: `row[j]` is the length of the
    longest common suffix of `as[..i]` and `bs[..j]`, computed from the
    previous row (`prev`). -/
def lcNext (c : Char) (bs : List Char) (prev : List Nat) : List Nat :=
  (bs.zip (0 :: prev)).map (fun p => if p.1 = c then p.2 + 1 else 0)

/-- Walk the difflib best-block update over row `i` (`j` counts the column):
    strictly larger sizes win, so the earliest (i, j) in scan order is kept on
    ties. -/
def bestScan (i : Nat) : List Nat → Nat → Nat → Nat → Nat → Nat × Nat × Nat
  | [], _, bi, bj, bk => (bi, bj, bk)
  | k :: row, j, bi, bj, bk =>
    if bk < k then bestScan i row (j + 1) (i + 1 - k) (j + 1 - k) k
    else bestScan i row (j + 1) bi bj bk

/-- Scan all rows of the table, tracking the best block. -/
def flmGo (bs : List Char) : List Char → Nat → List Nat → Nat → Nat → Nat → Nat × Nat × Nat
  | [], _, _, bi, bj, bk => (bi, bj, bk)
  | c :: as, i, prev, bi, bj, bk =>
    let row := lcNext c bs prev
    match bestScan i row 0 bi bj bk with
    | (bi', bj', bk') => flmGo bs as (i + 1) row bi' bj' bk'

/-- difflib `SequenceMatcher.find_longest_match` on whole sequences (window
    recursion below works on slices, which is position-shift invariant):
    returns (start in `as`, start in `bs`, size). -/
def find_longest_match (as bs : List Char) : Nat × Nat × Nat :=
  flmGo bs as 0 (bs.map fun _ => 0) 0 0 0

/-- Sum of the sizes of difflib `get_matching_blocks`: recurse on the slices
    before and after the longest match.  The fuel `|as| + |bs| + 1` strictly
    bounds the recursion depth (each nested window loses at least the chosen
    block, of size ≥ 1, from each side). -/
def matchBlocksSum : Nat → List Char → List Char → Nat
  | 0, _, _ => 0
  | fuel + 1, as, bs =>
    let m := find_longest_match as bs
    if m.2.2 = 0 then 0
    else
      matchBlocksSum fuel (as.take m.1) (bs.take m.2.1) + m.2.2 +
        matchBlocksSum fuel (as.drop (m.1 + m.2.2)) (bs.drop (m.2.1 + m.2.2))

/-- difflib `SequenceMatcher.ratio`: `2*M/T` (written `mkRat (2*M) T`, which
    is that quotient as a rational), and 1.0 for two empty inputs. -/
def ratioQ (a b : List Char) : ℚ :=
  if a.length + b.length = 0 then 1
  else mkRat (2 * (matchBlocksSum (a.length + b.length + 1) a b : Int)) (a.length + b.length)

/-! ## Deduplication (src/main.py 416-457) -/

/-- Source `calculate_similarity` (src/main.py 416-418): SequenceMatcher ratio of the
    lower-cased texts. -/
def calculate_similarity (t1 t2 : String) : ℚ :=
  ratioQ (t1.data.map Char.toLower) (t2.data.map Char.toLower)

/-- A news item as far as deduplication and persistence are concerned
    (the dict built in process_entries_async, src/main.py 670-702; the date,
    source and priority fields play no role in any claim and are omitted). -/
structure News where
  original_title : String
  url : String
  ann : String × String × String × String
deriving DecidableEq

/-- Source `is_duplicate` (src/main.py 421-431), with the deduplication feature
    enabled as configured. -/
def is_duplicate (title : String) (seen : List String) : Bool :=
  seen.any fun s => similarity_threshold ≤ calculate_similarity title s

/-- The loop of `remove_duplicates` (src/main.py 443-452): `seen` holds the
    titles of the articles kept so far. -/
def remove_duplicatesAux : List News → List String → List News
  | [], _ => []
  | n :: rest, seen =>
    if is_duplicate n.original_title seen then remove_duplicatesAux rest seen
    else n :: remove_duplicatesAux rest (seen ++ [n.original_title])

/-- Source `remove_duplicates` (src/main.py 434-457), with deduplication enabled. -/
def remove_duplicates (l : List News) : List News := remove_duplicatesAux l []

/-- Deduplication exactly as the claim words it: an article is dropped iff its
    title has similarity ≥ threshold with the title of some earlier KEPT
    article; kept articles stay in order.  (Used to compare the claim
    description against the `remove_duplicates` of the source.) -/
def dedupe_specAux : List News → List News → List News
  | [], _ => []
  | n :: rest, kept =>
    if kept.any (fun k => similarity_threshold ≤ calculate_similarity n.original_title k.original_title)
    then dedupe_specAux rest kept
    else n :: dedupe_specAux rest (kept ++ [n])

/-- Entry point of the claim-worded deduplication. -/
def dedupe_spec (l : List News) : List News := dedupe_specAux l []

/-! ## Fingerprint cache (src/main.py 309-410) -/

/-- One cache record: the four annotation fields plus the file modification
    time (save_to_cache writes the file, so its mtime is the write time). -/
structure CEntry where
  value : String × String × String × String
  mtime : ℚ
deriving DecidableEq

/-- The cache directory: one record per cache key. -/
abbrev CacheState := List (String × CEntry)

/-- Source `save_to_cache` (src/main.py 359-384): overwrites the record at
    `keyOf title` with the four fields, stamped with the current time. -/
def save_to_cache (keyOf : String → String) (now : ℚ) (st : CacheState)
    (title : String) (v : String × String × String × String) : CacheState :=
  (keyOf title, ⟨v, now⟩) :: st.filter fun p => p.1 != keyOf title

/-- Source `get_cached_summary` (src/main.py 324-356): absent file → miss; file older
    than `ttl` days → delete it and miss; otherwise return the four fields.
    Returns the possibly-updated cache directory as second component. -/
def get_cached_summary (keyOf : String → String) (now ttl : ℚ) (st : CacheState)
    (title : String) : Option (String × String × String × String) × CacheState :=
  match List.lookup (keyOf title) st with
  | none => (none, st)
  | some e =>
    if ttl < now - e.mtime then (none, st.filter fun p => p.1 != keyOf title)
    else (some e.value, st)

/-! ## Response parser (parse_ai_response, src/main.py 552-622)

The four field patterns are `re.search`es of the shape `label + \s* + (.+)`
(IGNORECASE is vacuous on the Korean labels; MULTILINE only affects `^`/`$`,
which do not occur).  Since `.` does not match a newline (no DOTALL for
title/category/short), the regex semantics are: at the leftmost occurrence of
the literal label, greedily skip whitespace (which may include newlines, so a
value may sit on the following line), then capture at least one non-newline
character up to the end of that line; if everything after the label is
whitespace, the engine backtracks to the last non-newline whitespace
character; if even that fails (only newlines follow), the search moves to the
next occurrence of the label.  The long-summary patterns use DOTALL and only
`match.start()` is consumed, so they reduce to: leftmost occurrence of the
label followed by at least one character. -/

/-- Python `\s` on the inputs at hand (ASCII whitespace). -/
def pyIsSpace (c : Char) : Bool :=
  c = ' ' || c = '\t' || c = '\n' || c = '\r' || c = Char.ofNat 11 || c = Char.ofNat 12

/-- Python `str.strip()`. -/
def pyStrip (s : List Char) : List Char :=
  ((s.dropWhile pyIsSpace).reverse.dropWhile pyIsSpace).reverse

/-- Model of the re.sub call that drops asterisks and backquotes. -/
def removeMarkup (s : List Char) : List Char :=
  s.filter fun c => c != '*' && c != Char.ofNat 96

/-- Model of the Python newline split taking piece zero, on a string already
    known to be newline-free, and the generic first line of a character
    list. -/
def firstLine (s : List Char) : List Char := s.takeWhile fun c => c != '\n'

/-- Index of the last character that is not a newline, if any. -/
def lastNonNl (s : List Char) : Option Nat :=
  let r := s.reverse
  let k := r.findIdx fun c => c != '\n'
  if k < r.length then some (s.length - 1 - k) else none

/-- Complete `\s*(.+)` (no DOTALL) against the suffix `s` after a label
    occurrence: greedy whitespace skip with backtracking, then the rest of the
    line (at least one character). -/
def matchTail (s : List Char) : Option (List Char) :=
  let w := s.takeWhile pyIsSpace
  let rest := s.drop w.length
  if rest.isEmpty then
    match lastNonNl s with
    | some j => some ((s.drop j).takeWhile fun c => c != '\n')
    | none => none
  else
    some (rest.takeWhile fun c => c != '\n')

/-- Model of re.search with pattern label-then-whitespace-then-capture: try
    each occurrence of the literal label left to right and return the first
    capture that completes. -/
def searchLabel (label : List Char) : List Char → Option (List Char)
  | [] => none
  | c :: rest =>
    if label.isPrefixOf (c :: rest) then
      match matchTail ((c :: rest).drop label.length) with
      | some g => some g
      | none => searchLabel label rest
    else searchLabel label rest

/-- Model of the DOTALL re.search match start, as the suffix of the text from
    that position: the leftmost occurrence of the label followed by at least
    one character (of any kind). -/
def searchFrom (label : List Char) : List Char → Option (List Char)
  | [] => none
  | c :: rest =>
    if label.isPrefixOf (c :: rest) && label.length < (c :: rest).length then
      some (c :: rest)
    else searchFrom label rest

/-- Try an ordered list of label patterns, first match wins (the `for pattern
    in patterns: ... break` loops of parse_ai_response). -/
def extractField (labels : List (List Char)) (t : List Char) : Option (List Char) :=
  match labels with
  | [] => none
  | l :: ls =>
    match searchLabel l t with
    | some g => some g
    | none => extractField ls t

/-- Python substring containment (the in operator on str). -/
def hasSub (needle : List Char) : List Char → Bool
  | [] => needle.isPrefixOf []
  | c :: rest => needle.isPrefixOf (c :: rest) || hasSub needle rest

/-- Split on newline with Python semantics (an empty input gives one empty
    line). -/
def splitLines : List Char → List (List Char)
  | [] => [[]]
  | c :: rest =>
    if c = '\n' then [] :: splitLines rest
    else
      match splitLines rest with
      | l :: ls => (c :: l) :: ls
      | [] => [[c]]

/-- The title patterns of src/main.py 560-563, in source order (bold first). -/
def titleLabels : List (List Char) := [("**제목**:").data, ("제목:").data]

/-- The category patterns of src/main.py 571-574. -/
def catLabels : List (List Char) := [("**카테고리**:").data, ("카테고리:").data]

/-- The short-summary patterns of src/main.py 582-585. -/
def shortLabels : List (List Char) := [("**짧은요약**:").data, ("짧은요약:").data]

/-- The plain label substrings that exclude a line from the long-summary
    reconstruction (src/main.py 603). -/
def otherFieldSubs : List (List Char) := [("제목:").data, ("카테고리:").data, ("짧은요약:").data]

/-- Model of the re.sub that removes a leading long-summary label with its
    trailing whitespace (src/main.py 604): an anchored alternation, left
    (bold) alternative first, greedy whitespace. -/
def stripLongLabel (line : List Char) : List Char :=
  if (("**긴요약**:").data).isPrefixOf line then
    (line.drop ("**긴요약**:").data.length).dropWhile pyIsSpace
  else if (("긴요약:").data).isPrefixOf line then
    (line.drop ("긴요약:").data.length).dropWhile pyIsSpace
  else line

/-- The line filter of the long-summary loop (src/main.py 603): nonblank and
    not containing the plain label of any other field anywhere in the line. -/
def longLineKeep (line : List Char) : Bool :=
  !(pyStrip line).isEmpty && !(otherFieldSubs.any fun s => hasSub s line)

/-- The long-summary reconstruction loop (src/main.py 600-608): scan the lines
    of `rem` (the text from the match start), keep qualifying lines, strip the
    long label and markup, append each survivor followed by a space, and strip
    the result. -/
def buildLong (rem : List Char) : List Char :=
  pyStrip ((splitLines rem).foldl
    (fun acc line =>
      if longLineKeep line then
        let c := pyStrip (removeMarkup (stripLongLabel line))
        if c.isEmpty then acc else acc ++ c ++ [' ']
      else acc)
    [])

/-- The long-summary pattern loop (src/main.py 593-610): bold pattern first;
    keep its reconstruction if nonempty, otherwise fall through to the plain
    pattern. -/
def rawLong (t : List Char) : List Char :=
  match searchFrom (("**긴요약**:").data) t with
  | some rem =>
    let b := buildLong rem
    if b.isEmpty then
      match searchFrom (("긴요약:").data) t with
      | some rem2 => buildLong rem2
      | none => b
    else b
  | none =>
    match searchFrom (("긴요약:").data) t with
    | some rem2 => buildLong rem2
    | none => []

/-- Model of the stripped capture group cleaned and cut to its first line,
    as done for the title and category fields (src/main.py 567, 578). -/
def cleanLine (g : List Char) : List Char := firstLine (removeMarkup (pyStrip g))

/-- The short-summary cleaning (src/main.py 589): no first-line cut. -/
def cleanShort (g : List Char) : List Char := removeMarkup (pyStrip g)

/-- The synthesized short-summary tail `" 관련 뉴스입니다."` (src/main.py 617, 628). -/
def shortTail : List Char := (" 관련 뉴스입니다.").data

/-- The synthesized long-summary tail (src/main.py 620, 629). -/
def longTail : List Char := (" 관련 소식입니다. 자세한 내용은 원문을 참조하세요.").data

/-- The title validation (src/main.py 613-614): empty or shorter than 5
    characters → the original title truncated to 50. -/
def vTitle (tt0 tt1 : List Char) : List Char := if tt1.length < 5 then tt0 else tt1

/-- The short-summary validation (src/main.py 616-617). -/
def vShort (tt ss1 : List Char) : List Char := if ss1.length < 10 then tt ++ shortTail else ss1

/-- The long-summary validation (src/main.py 619-620). -/
def vLong (tt ls1 : List Char) : List Char := if ls1.length < 20 then tt ++ longTail else ls1

/-- The title extraction (src/main.py 554, 559-568): the matched, cleaned
    first line, or the initial value `original_title[:50]`. -/
def extTitle (t tt0 : List Char) : List Char :=
  match extractField titleLabels t with
  | some g => cleanLine g
  | none => tt0

/-- The category extraction (src/main.py 555, 570-579): the matched, cleaned
    first line, or the first configured category. -/
def extCat (t : List Char) : List Char :=
  match extractField catLabels t with
  | some g => cleanLine g
  | none => (CATEGORIES.getD 0 "").data

/-- The short-summary extraction (src/main.py 556, 581-590): the matched,
    cleaned capture, or the empty string. -/
def extShort (t : List Char) : List Char :=
  match extractField shortLabels t with
  | some g => cleanShort g
  | none => []

/-- The body of `parse_ai_response` (src/main.py 552-622) on character lists:
    extraction of the four fields followed by validation. -/
def parseTuple (t titleL : List Char) : String × String × String × String :=
  let tt0 := titleL.take 50
  let tt := vTitle tt0 (extTitle t tt0)
  (String.mk tt, String.mk (vShort tt (extShort t)), String.mk (vLong tt (rawLong t)),
    String.mk (extCat t))

/-- Source `parse_ai_response` (src/main.py 552-622): declared Optional, but every
    control path reaches the final `return (…)`, so the result is always
    `some`. -/
def parse_ai_response (text original_title : String) :
    Option (String × String × String × String) :=
  some (parseTuple text.data original_title.data)

/-- Source `get_fallback_summary` (src/main.py 625-632). -/
def get_fallback_summary (title : String) : String × String × String × String :=
  let tt := title.data.take 50 ++ (if 50 < title.data.length then ("...").data else [])
  (String.mk tt, String.mk (tt ++ shortTail), String.mk (tt ++ longTail), CATEGORIES.getD 0 "")

/-! ## Annotation client (get_ai_summary_async, src/main.py 463-549)

One script element per HTTP request of the retry loop.  `ok text?` is an
HTTP 200 whose JSON either yields the candidates text (`some`) or lacks the
expected candidates/content/parts structure (`none`, which the code treats
like a parse failure and retries).  `timeout` is `asyncio.TimeoutError`;
`otherError` is any other raised exception (JSON decode failure, transport
errors other than a timeout, …), which the bare `except Exception` turns
into a `break`. -/

inductive ApiResponse where
  | ok (text : Option String)
  | rateLimited
  | otherStatus (code : Nat)
  | timeout
  | otherError
deriving DecidableEq

/-- Observable effects of one run of the retry loop, in order.  Sleep
    durations are in whole seconds, as in the source (`2 ** attempt` and `1`
    are Python ints). -/
inductive AiEvent where
  | call (attempt : Nat)
  | rlSleep (attempt : Nat) (dur : Nat)
  | fixedSleep (dur : Nat)
  | cacheWrite (v : String × String × String × String)
deriving DecidableEq

/-- Result of a run of the annotation client: the returned four fields, the
    event trace and the final cache directory. -/
structure AiRun where
  result : String × String × String × String
  events : List AiEvent
  cache : CacheState
deriving DecidableEq

/-- The `for attempt in range(max_retries)` loop of src/main.py 510-549.
    `rem` is the number of attempts left (`max_retries - attempt`); the loop
    falls through to `get_fallback_summary` when the budget (or the supplied
    response script) is exhausted, and `except Exception` breaks to the same
    fallback. -/
def runAttempts (keyOf : String → String) (now : ℚ) (title : String) :
    Nat → Nat → List ApiResponse → CacheState → AiRun
  | 0, _, _, st => ⟨get_fallback_summary title, [], st⟩
  | _ + 1, _, [], st => ⟨get_fallback_summary title, [], st⟩
  | rem + 1, attempt, r :: rest, st =>
    match r with
    | .ok b =>
      match b with
      | some text =>
        if text = "" then
          let o := runAttempts keyOf now title rem (attempt + 1) rest st
          ⟨o.result, .call attempt :: o.events, o.cache⟩
        else
          match parse_ai_response text title with
          | some p =>
            ⟨p, [.call attempt, .cacheWrite p], save_to_cache keyOf now st title p⟩
          | none =>
            let o := runAttempts keyOf now title rem (attempt + 1) rest st
            ⟨o.result, .call attempt :: o.events, o.cache⟩
      | none =>
        let o := runAttempts keyOf now title rem (attempt + 1) rest st
        ⟨o.result, .call attempt :: o.events, o.cache⟩
    | .rateLimited =>
      let o := runAttempts keyOf now title rem (attempt + 1) rest st
      ⟨o.result, .call attempt :: .rlSleep attempt (2 ^ attempt) :: o.events, o.cache⟩
    | .otherStatus _ =>
      let o := runAttempts keyOf now title rem (attempt + 1) rest st
      ⟨o.result, .call attempt :: o.events, o.cache⟩
    | .timeout =>
      let o := runAttempts keyOf now title rem (attempt + 1) rest st
      ⟨o.result, .call attempt :: .fixedSleep 1 :: o.events, o.cache⟩
    | .otherError =>
      ⟨get_fallback_summary title, [.call attempt], st⟩

/-- Source `get_ai_summary_async` (src/main.py 463-549): cache lookup first (which
    may delete an expired record); on a hit return it with no network
    activity, on a miss run the retry loop.  The boolean reports a cache
    hit. -/
def get_ai_summary_async (keyOf : String → String) (now : ℚ) (maxR : Nat)
    (st : CacheState) (title : String) (script : List ApiResponse) : AiRun × Bool :=
  match get_cached_summary keyOf now CACHE_expiry_days st title with
  | (some c, st') => (⟨c, [], st'⟩, true)
  | (none, st') => (runAttempts keyOf now title maxR 0 script st', false)

/-- A script element the retry loop can turn into a parsed annotation:
    HTTP 200 with a nonempty candidates text. -/
def usableB : ApiResponse → Bool
  | .ok (some t) => t != ""
  | _ => false

/-- Number of HTTP requests in a trace. -/
def callCount (evs : List AiEvent) : Nat :=
  evs.countP fun e => match e with | .call _ => true | _ => false

/-- The rate-limit backoffs of a trace, as (attempt, duration) pairs in
    order. -/
def rlPairs (evs : List AiEvent) : List (Nat × Nat) :=
  evs.filterMap fun e => match e with | .rlSleep a d => some (a, d) | _ => none

/-! ## Batch pipeline (process_entries_async and main_async, src/main.py
638-706 and 985-1027)

`process_entries_async` walks `entries[:max_news]`, skips entries with an
empty title or link, creates one `get_ai_summary_async` task per surviving
entry, gathers them, and zips the annotations back onto the entries.
`main_async` collects the annotated news from all feeds and only then calls
`remove_duplicates` (src/main.py 1012 and 1021).  The concurrent gather is
modelled by sequentially threading the cache through the annotation calls
(the claims touched by this model do not depend on interleaving). -/

/-- An RSS entry as used by process_entries_async (`entry.title`,
    `entry.link`). -/
structure Entry where
  title : String
  link : String
deriving DecidableEq

/-- Outcome of annotating a batch: the entry/annotation pairs in input order,
    the final cache, and the total number of HTTP requests. -/
structure BatchOut where
  annotated : List (Entry × (String × String × String × String))
  cache : CacheState
  calls : Nat
deriving DecidableEq

/-- One `get_ai_summary_async` invocation per entry, in order (the task list
    built at src/main.py 678 and gathered at 686). -/
def annotateAll (keyOf : String → String) (now : ℚ) (maxR : Nat) :
    List Entry → List (List ApiResponse) → CacheState → BatchOut
  | [], _, st => ⟨[], st, 0⟩
  | e :: es, scripts, st =>
    let r := get_ai_summary_async keyOf now maxR st e.title (scripts.headD [])
    let rest := annotateAll keyOf now maxR es scripts.tail r.1.cache
    ⟨(e, r.1.result) :: rest.annotated, rest.cache, callCount r.1.events + rest.calls⟩

/-- The entry slicing and validity filter of process_entries_async
    (src/main.py 654-668): at most `max_news` entries, and entries with an
    empty title or link are skipped. -/
def validEntries (maxNews : Nat) (entries : List Entry) : List Entry :=
  (entries.take maxNews).filter fun e => e.title != "" && e.link != ""

/-- Source `process_entries_async` (src/main.py 638-706): annotate every valid
    entry.  No deduplication happens here. -/
def process_entries_model (keyOf : String → String) (now : ℚ) (maxR maxNews : Nat)
    (entries : List Entry) (scripts : List (List ApiResponse)) (st : CacheState) : BatchOut :=
  annotateAll keyOf now maxR (validEntries maxNews entries) scripts st

/-- The news dict built at src/main.py 670-702 for one annotated entry. -/
def toNews (p : Entry × (String × String × String × String)) : News :=
  ⟨p.1.title, p.1.link, p.2⟩

/-- The relevant slice of `main_async` (src/main.py 1012-1021): collect the
    annotated news first, then `remove_duplicates` on the annotated list. -/
def main_model (keyOf : String → String) (now : ℚ) (maxR maxNews : Nat)
    (entries : List Entry) (scripts : List (List ApiResponse)) (st : CacheState) :
    List News × CacheState × Nat :=
  let b := process_entries_model keyOf now maxR maxNews entries scripts st
  (remove_duplicates (b.annotated.map toNews), b.cache, b.calls)

/-! ## Claim-worded and amended parser variants (for claim C5)

`parseTupleClaimed` renders the claim sentence for the long summary:
"... excluding lines that START a different labeled field ..." — a line is
excluded when it begins with the label of another field (plain or bold form).
`parseTupleAmended` renders the amended sentence: a line is excluded when it
CONTAINS one of the plain-form labels 제목:, 카테고리:, 짧은요약: anywhere.
Everything else (ordered plain/bold patterns, first-line cut for title and
category, short summary possibly on the following line, label and markup
stripping, single-space concatenation, validation) is shared. -/

/-- The label forms that can start a line of a different field (claim
    wording). -/
def otherFieldStarts : List (List Char) :=
  [("제목:").data, ("**제목**:").data, ("카테고리:").data, ("**카테고리**:").data,
   ("짧은요약:").data, ("**짧은요약**:").data]

/-- Claim-worded line filter: nonblank and not starting a different labeled
    field. -/
def claimedLineKeep (line : List Char) : Bool :=
  !(pyStrip line).isEmpty && !(otherFieldStarts.any fun s => s.isPrefixOf line)

/-- Long-summary reconstruction with the claim-worded filter. -/
def buildLongClaimed (rem : List Char) : List Char :=
  pyStrip ((splitLines rem).foldl
    (fun acc line =>
      if claimedLineKeep line then
        let c := pyStrip (removeMarkup (stripLongLabel line))
        if c.isEmpty then acc else acc ++ c ++ [' ']
      else acc)
    [])

/-- Long-summary pattern loop with the claim-worded filter. -/
def rawLongClaimed (t : List Char) : List Char :=
  match searchFrom (("**긴요약**:").data) t with
  | some rem =>
    let b := buildLongClaimed rem
    if b.isEmpty then
      match searchFrom (("긴요약:").data) t with
      | some rem2 => buildLongClaimed rem2
      | none => b
    else b
  | none =>
    match searchFrom (("긴요약:").data) t with
    | some rem2 => buildLongClaimed rem2
    | none => []

/-- The parser as the claim describes it. -/
def parseTupleClaimed (t titleL : List Char) : String × String × String × String :=
  let tt0 := titleL.take 50
  let tt := vTitle tt0 (extTitle t tt0)
  (String.mk tt, String.mk (vShort tt (extShort t)),
    String.mk (vLong tt (rawLongClaimed t)), String.mk (extCat t))

/-- Amended line filter: nonblank and not containing a plain-form label of a
    different field anywhere in the line. -/
def amendedLineKeep (line : List Char) : Bool :=
  !(pyStrip line).isEmpty && !(otherFieldSubs.any fun s => hasSub s line)

/-- Long-summary reconstruction with the amended filter. -/
def buildLongAmended (rem : List Char) : List Char :=
  pyStrip ((splitLines rem).foldl
    (fun acc line =>
      if amendedLineKeep line then
        let c := pyStrip (removeMarkup (stripLongLabel line))
        if c.isEmpty then acc else acc ++ c ++ [' ']
      else acc)
    [])

/-- Long-summary pattern loop with the amended filter. -/
def rawLongAmended (t : List Char) : List Char :=
  match searchFrom (("**긴요약**:").data) t with
  | some rem =>
    let b := buildLongAmended rem
    if b.isEmpty then
      match searchFrom (("긴요약:").data) t with
      | some rem2 => buildLongAmended rem2
      | none => b
    else b
  | none =>
    match searchFrom (("긴요약:").data) t with
    | some rem2 => buildLongAmended rem2
    | none => []

/-- The parser as the amended claim describes it. -/
def parseTupleAmended (t titleL : List Char) : String × String × String × String :=
  let tt0 := titleL.take 50
  let tt := vTitle tt0 (extTitle t tt0)
  (String.mk tt, String.mk (vShort tt (extShort t)),
    String.mk (vLong tt (rawLongAmended t)), String.mk (extCat t))

/-- The per-claim minimum-length invariant on a returned annotation: the
    translated title has ≥ 5 characters or equals the original title
    truncated to 50; the short summary has ≥ 10 characters; the long summary
    has ≥ 20 characters. -/
def SummaryInv (title : String) (s : String × String × String × String) : Prop :=
  (5 ≤ s.1.length ∨ s.1.data = title.data.take 50) ∧
    10 ≤ s.2.1.length ∧ 20 ≤ s.2.2.1.length

/-! ## Helper lemmas -/

theorem lookup_filter_ne (k : String) (l : CacheState) :
    List.lookup k (l.filter fun p => p.1 != k) = none := by
  induction l with
  | nil => rfl
  | cons p l ih =>
    simp only [List.filter_cons]
    split
    · rename_i h
      have hne : ¬(k == p.1) = true := by
        simp only [bne_iff_ne, ne_eq] at h
        simp only [beq_iff_eq]
        exact fun hk => h hk.symm
      simp [List.lookup, hne, ih]
    · exact ih

theorem remove_duplicatesAux_sublist :
    ∀ (l : List News) (seen : List String), (remove_duplicatesAux l seen).Sublist l := by
  intro l
  induction l with
  | nil => intro seen; exact List.Sublist.refl _
  | cons n rest ih =>
    intro seen
    simp only [remove_duplicatesAux]
    split
    · exact (ih seen).cons n
    · exact (ih (seen ++ [n.original_title])).cons₂ n

theorem any_map_comp {α β : Type} (f : α → β) (p : β → Bool) (l : List α) :
    (l.map f).any p = l.any fun a => p (f a) := by
  induction l with
  | nil => rfl
  | cons a l ih => simp only [List.map_cons, List.any_cons, ih]

theorem is_dup_of_kept (n : News) (kept : List News) :
    is_duplicate n.original_title (kept.map News.original_title)
      = kept.any fun k =>
          decide (similarity_threshold ≤ calculate_similarity n.original_title k.original_title) := by
  simp only [is_duplicate]
  exact any_map_comp News.original_title _ kept

theorem dedupe_aux_eq :
    ∀ (l : List News) (kept : List News),
      remove_duplicatesAux l (kept.map News.original_title) = dedupe_specAux l kept := by
  intro l
  induction l with
  | nil => intro kept; rfl
  | cons n rest ih =>
    intro kept
    simp only [remove_duplicatesAux, dedupe_specAux]
    by_cases hb : is_duplicate n.original_title (kept.map News.original_title) = true
    · rw [if_pos hb, if_pos (by rw [← is_dup_of_kept]; exact hb)]
      exact ih kept
    · rw [if_neg hb, if_neg (by rw [← is_dup_of_kept]; exact hb)]
      rw [show (kept.map News.original_title) ++ [n.original_title] =
          (kept ++ [n]).map News.original_title by simp]
      rw [ih (kept ++ [n])]

/-! ## Claim theorems: cache (C7) and deduplication (C4) -/

/-- C7: cache round-trip and expiry.  After `save_to_cache` at time `now`, a
    lookup at time `now'` returns exactly the stored annotation as long as
    the entry's age `now' - now` does not exceed the TTL; at any later time
    the lookup misses and the expired record is deleted by the lookup. -/
theorem claim7_cache_roundtrip_expiry :
    ∀ (keyOf : String → String) (now now' : ℚ) (st : CacheState) (title : String)
      (v : String × String × String × String),
      (now' - now ≤ CACHE_expiry_days →
        (get_cached_summary keyOf now' CACHE_expiry_days
            (save_to_cache keyOf now st title v) title).1 = some v) ∧
      (CACHE_expiry_days < now' - now →
        (get_cached_summary keyOf now' CACHE_expiry_days
            (save_to_cache keyOf now st title v) title).1 = none ∧
        List.lookup (keyOf title)
            (get_cached_summary keyOf now' CACHE_expiry_days
              (save_to_cache keyOf now st title v) title).2 = none) := by
  intro keyOf now now' st title v
  have hlook :
      List.lookup (keyOf title) (save_to_cache keyOf now st title v) =
        some (⟨v, now⟩ : CEntry) := by
    simp [save_to_cache, List.lookup]
  constructor
  · intro h
    simp only [get_cached_summary, hlook]
    rw [if_neg (by exact not_lt.mpr h)]
  · intro h
    simp only [get_cached_summary, hlook]
    rw [if_pos (by exact h)]
    refine ⟨rfl, ?_⟩
    exact lookup_filter_ne (keyOf title) (save_to_cache keyOf now st title v)

/-- C7 witness: a concrete round trip at age 7 days (still valid) and a
    lookup at age 8 days (expired, deleted). -/
theorem claim7_witness :
    (get_cached_summary (fun s => s) 7 CACHE_expiry_days
        (save_to_cache (fun s => s) 0 [] "Colon news" ("a", "bcdefghijk", "c", "d")) "Colon news").1 =
      some ("a", "bcdefghijk", "c", "d") ∧
    (get_cached_summary (fun s => s) 8 CACHE_expiry_days
        (save_to_cache (fun s => s) 0 [] "Colon news" ("a", "bcdefghijk", "c", "d")) "Colon news").1 =
      none ∧
    List.lookup "Colon news"
        (get_cached_summary (fun s => s) 8 CACHE_expiry_days
          (save_to_cache (fun s => s) 0 [] "Colon news" ("a", "bcdefghijk", "c", "d")) "Colon news").2 =
      none :=
  ⟨(claim7_cache_roundtrip_expiry (fun s => s) 0 7 [] "Colon news" ("a", "bcdefghijk", "c", "d")).1
      (by norm_num [CACHE_expiry_days]),
   ((claim7_cache_roundtrip_expiry (fun s => s) 0 8 [] "Colon news" ("a", "bcdefghijk", "c", "d")).2
      (by norm_num [CACHE_expiry_days])).1,
   ((claim7_cache_roundtrip_expiry (fun s => s) 0 8 [] "Colon news" ("a", "bcdefghijk", "c", "d")).2
      (by norm_num [CACHE_expiry_days])).2⟩

/-- C4: deduplication is first-wins, in order: the source `remove_duplicates`
    coincides with the claim-worded filter (drop iff similarity ≥ threshold
    with some earlier kept title, case-insensitively), kept articles keep
    their relative order (sublist), and on the concrete example of the claim the
    second article is dropped and the first and third are kept in order. -/
theorem claim4_dedup_first_wins :
    (∀ l : List News, remove_duplicates l = dedupe_spec l) ∧
    (∀ l : List News, (remove_duplicates l).Sublist l) ∧
    remove_duplicates
        [⟨"Colon cancer screening rises", "u1", ("", "", "", "")⟩,
         ⟨"Colon cancer screening RISES", "u2", ("", "", "", "")⟩,
         ⟨"Unrelated endoscopy news", "u3", ("", "", "", "")⟩] =
      [⟨"Colon cancer screening rises", "u1", ("", "", "", "")⟩,
       ⟨"Unrelated endoscopy news", "u3", ("", "", "", "")⟩] := by
  refine ⟨fun l => ?_, fun l => remove_duplicatesAux_sublist l [], by decide⟩
  have h := dedupe_aux_eq l []
  simpa [remove_duplicates, dedupe_spec] using h

/-! ## Parser invariant lemmas -/

theorem shortTail_length : shortTail.length = 10 := by decide

theorem longTail_length : longTail.length = 29 := by decide

theorem len_append_shortTail (x : List Char) : 10 ≤ (x ++ shortTail).length := by
  rw [List.length_append, shortTail_length]
  omega

theorem len_append_longTail (x : List Char) : 20 ≤ (x ++ longTail).length := by
  rw [List.length_append, longTail_length]
  omega

theorem vTitle_inv (tt0 tt1 : List Char) :
    vTitle tt0 tt1 = tt0 ∨ 5 ≤ (vTitle tt0 tt1).length := by
  unfold vTitle
  split
  · exact Or.inl rfl
  · rename_i h
    exact Or.inr (Nat.le_of_not_lt h)

theorem vShort_len (tt ss1 : List Char) : 10 ≤ (vShort tt ss1).length := by
  unfold vShort
  split
  · exact len_append_shortTail tt
  · rename_i h
    exact Nat.le_of_not_lt h

theorem vLong_len (tt ls1 : List Char) : 20 ≤ (vLong tt ls1).length := by
  unfold vLong
  split
  · exact len_append_longTail tt
  · rename_i h
    exact Nat.le_of_not_lt h

theorem parseTuple_inv (t : List Char) (title : String) :
    SummaryInv title (parseTuple t title.data) := by
  rcases vTitle_inv (title.data.take 50) (extTitle t (title.data.take 50)) with h | h
  · exact ⟨Or.inr h, vShort_len _ _, vLong_len _ _⟩
  · exact ⟨Or.inl h, vShort_len _ _, vLong_len _ _⟩

theorem fallback_inv (title : String) : SummaryInv title (get_fallback_summary title) := by
  refine ⟨?_, len_append_shortTail _, len_append_longTail _⟩
  by_cases h : 50 < title.data.length
  · left
    show 5 ≤ (title.data.take 50 ++ if 50 < title.data.length then ("...").data else []).length
    rw [if_pos h, List.length_append, List.length_take]
    omega
  · right
    show (title.data.take 50 ++ if 50 < title.data.length then ("...").data else []) =
      title.data.take 50
    rw [if_neg h, List.append_nil]

theorem fallback_cat (title : String) :
    (get_fallback_summary title).2.2.2 = CATEGORIES.getD 0 "" := rfl

theorem runAttempts_result_inv (keyOf : String → String) (now : ℚ) (title : String) :
    ∀ (rem attempt : Nat) (script : List ApiResponse) (st : CacheState),
      SummaryInv title (runAttempts keyOf now title rem attempt script st).result := by
  intro rem
  induction rem with
  | zero => intro attempt script st; exact fallback_inv title
  | succ rem ih =>
    intro attempt script st
    cases script with
    | nil => exact fallback_inv title
    | cons r rest =>
      cases r with
      | ok b =>
        cases b with
        | some text =>
          by_cases h : text = ""
          · simp only [runAttempts, if_pos h]
            exact ih (attempt + 1) rest st
          · simp only [runAttempts, if_neg h, parse_ai_response]
            exact parseTuple_inv text.data title
        | none =>
          simp only [runAttempts]
          exact ih (attempt + 1) rest st
      | rateLimited =>
        simp only [runAttempts]
        exact ih (attempt + 1) rest st
      | otherStatus code =>
        simp only [runAttempts]
        exact ih (attempt + 1) rest st
      | timeout =>
        simp only [runAttempts]
        exact ih (attempt + 1) rest st
      | otherError =>
        simp only [runAttempts]
        exact fallback_inv title

/-! ## Claim theorems: parser and annotation invariants (C1, C5, C6, C10) -/

/-- C6: the response parser never fails: on every input it returns a complete
    4-tuple satisfying the minimum-length invariants, and each field whose
    label is missing from the text is the documented synthesized fallback
    (truncated original title; default category; templated short and long
    summaries built from the translated title). -/
theorem claim6_parser_never_fails :
    ∀ text title : String,
      parse_ai_response text title = some (parseTuple text.data title.data) ∧
      SummaryInv title (parseTuple text.data title.data) ∧
      (extractField titleLabels text.data = none →
        (parseTuple text.data title.data).1.data = title.data.take 50) ∧
      (extractField catLabels text.data = none →
        (parseTuple text.data title.data).2.2.2 = CATEGORIES.getD 0 "") ∧
      (extractField shortLabels text.data = none →
        (parseTuple text.data title.data).2.1.data =
          (parseTuple text.data title.data).1.data ++ shortTail) ∧
      (rawLong text.data = [] →
        (parseTuple text.data title.data).2.2.1.data =
          (parseTuple text.data title.data).1.data ++ longTail) := by
  intro text title
  refine ⟨rfl, parseTuple_inv _ _, ?_, ?_, ?_, ?_⟩
  · intro h
    show vTitle (title.data.take 50) (extTitle text.data (title.data.take 50)) =
      title.data.take 50
    unfold extTitle
    rw [h]
    unfold vTitle
    exact ite_self _
  · intro h
    show String.mk (extCat text.data) = CATEGORIES.getD 0 ""
    unfold extCat
    rw [h]
  · intro h
    have h1 : extShort text.data = [] := by unfold extShort; rw [h]
    show vShort (vTitle (title.data.take 50) (extTitle text.data (title.data.take 50)))
        (extShort text.data) =
      vTitle (title.data.take 50) (extTitle text.data (title.data.take 50)) ++ shortTail
    rw [h1]
    unfold vShort
    rw [if_pos (by decide)]
  · intro h
    show vLong (vTitle (title.data.take 50) (extTitle text.data (title.data.take 50)))
        (rawLong text.data) =
      vTitle (title.data.take 50) (extTitle text.data (title.data.take 50)) ++ longTail
    rw [h]
    unfold vLong
    rw [if_pos (by decide)]

/-- C6 witness: a text with none of the four labels yields the all-fallback
    tuple, with the default category and the truncated original title. -/
theorem claim6_witness :
    parse_ai_response "This update mentions no labeled fields at all" "Endoscopy weekly" =
      some (parseTuple ("This update mentions no labeled fields at all").data
        ("Endoscopy weekly").data) ∧
    (parseTuple ("This update mentions no labeled fields at all").data
        ("Endoscopy weekly").data).2.2.2 = CATEGORIES.getD 0 "" ∧
    (parseTuple ("This update mentions no labeled fields at all").data
        ("Endoscopy weekly").data).1.data = ("Endoscopy weekly").data.take 50 :=
  ⟨(claim6_parser_never_fails "This update mentions no labeled fields at all" "Endoscopy weekly").1,
   (claim6_parser_never_fails "This update mentions no labeled fields at all"
      "Endoscopy weekly").2.2.2.1 (by decide),
   (claim6_parser_never_fails "This update mentions no labeled fields at all"
      "Endoscopy weekly").2.2.1 (by decide)⟩

/-- C1 counterexample: the claim asserts the returned category is always a
    non-empty string, but a 200-response whose category label is followed
    only by markup (here `카테고리: *`) parses, is returned (and cached) with
    the empty category. -/
theorem claim1_cex :
    (get_ai_summary_async (fun s => s) 0 AI_max_retries []
        "Colon cancer screening guidelines updated"
        [ApiResponse.ok (some "카테고리: *")]).1.result.2.2.2 = "" := by decide

/-- C1 amended: every annotation returned by `get_ai_summary_async` — from
    cache (provided the cached records satisfy the invariant), from a parsed
    API response, or from the fallback path — satisfies the three
    minimum-length invariants (title ≥ 5 chars or the truncated original,
    short summary ≥ 10 chars, long summary ≥ 20 chars); the category is the
    non-empty default whenever no category label matched, and the fallback
    path always returns the non-empty default category, but a matched
    category label may leave the category empty after markup stripping. -/
theorem claim1_amended :
    (∀ (keyOf : String → String) (now : ℚ) (maxR : Nat) (st : CacheState) (title : String)
        (script : List ApiResponse),
      (∀ e : CEntry, List.lookup (keyOf title) st = some e → SummaryInv title e.value) →
      SummaryInv title (get_ai_summary_async keyOf now maxR st title script).1.result) ∧
    (∀ text title : String, extractField catLabels text.data = none →
      (parseTuple text.data title.data).2.2.2 = CATEGORIES.getD 0 "") ∧
    (∀ title : String, (get_fallback_summary title).2.2.2 = CATEGORIES.getD 0 "") := by
  refine ⟨?_, ?_, fun title => fallback_cat title⟩
  · intro keyOf now maxR st title script hinv
    cases hl : List.lookup (keyOf title) st with
    | none =>
      have hc : get_cached_summary keyOf now CACHE_expiry_days st title = (none, st) := by
        unfold get_cached_summary
        rw [hl]
      simp only [get_ai_summary_async, hc]
      exact runAttempts_result_inv keyOf now title maxR 0 script st
    | some e =>
      by_cases hex : CACHE_expiry_days < now - e.mtime
      · have hc : get_cached_summary keyOf now CACHE_expiry_days st title =
            (none, st.filter fun p => p.1 != keyOf title) := by
          unfold get_cached_summary
          rw [hl]
          dsimp only
          rw [if_pos hex]
        simp only [get_ai_summary_async, hc]
        exact runAttempts_result_inv keyOf now title maxR 0 script _
      · have hc : get_cached_summary keyOf now CACHE_expiry_days st title =
            (some e.value, st) := by
          unfold get_cached_summary
          rw [hl]
          dsimp only
          rw [if_neg hex]
        simp only [get_ai_summary_async, hc]
        exact hinv e hl
  · intro text title h
    show String.mk (extCat text.data) = CATEGORIES.getD 0 ""
    unfold extCat
    rw [h]

/-- C1 witness: on an empty cache and an empty response script the client
    degrades to the fallback annotation, which satisfies the invariants. -/
theorem claim1_witness :
    SummaryInv "Endoscopy news"
      (get_ai_summary_async (fun s => s) 0 AI_max_retries [] "Endoscopy news" []).1.result :=
  claim1_amended.1 (fun s => s) 0 AI_max_retries [] "Endoscopy news" []
    (fun _ h => Option.noConfusion h)

/-- C5 counterexample: the claim says the long-summary reconstruction
    excludes lines that START a different labeled field; the code excludes
    lines that CONTAIN a plain-form label anywhere.  On a response whose
    second line embeds `제목:` mid-line, the two disagree. -/
theorem claim5_cex :
    parseTuple ("긴요약: 여기 스무 글자가 넘는 아주 긴 요약 문장입니다\nabc 제목: 다른 내용입니다").data
        ("Colon cancer weekly brief").data ≠
      parseTupleClaimed
        ("긴요약: 여기 스무 글자가 넘는 아주 긴 요약 문장입니다\nabc 제목: 다른 내용입니다").data
        ("Colon cancer weekly brief").data := by decide

/-- C5 amended: the parser behaves exactly as the claim describes once the
    long-summary exclusion is read as "lines that contain the plain-form
    label 제목:, 카테고리: or 짧은요약: of a different field anywhere in the
    line" (bold-form labels are not excluded): the source parser equals the
    amended description on every input. -/
theorem claim5_amended_eq :
    ∀ text title : String,
      parse_ai_response text title = some (parseTupleAmended text.data title.data) :=
  fun _ _ => rfl

/-- C10: `parse_ai_response` never returns `none` despite its Optional
    declared type, and consequently an HTTP 200 attempt with a nonempty
    candidates text always succeeds immediately: the parsed annotation is
    cached and returned, consuming exactly one call — the parse-failure
    retry branch is unreachable through a parse failure. -/
theorem claim10_parse_always_some :
    (∀ text title : String, (parse_ai_response text title).isSome = true) ∧
    (∀ (keyOf : String → String) (now : ℚ) (title : String) (rem attempt : Nat)
        (rest : List ApiResponse) (st : CacheState) (text : String),
      text ≠ "" →
      runAttempts keyOf now title (rem + 1) attempt (ApiResponse.ok (some text) :: rest) st =
        ⟨parseTuple text.data title.data,
         [AiEvent.call attempt, AiEvent.cacheWrite (parseTuple text.data title.data)],
         save_to_cache keyOf now st title (parseTuple text.data title.data)⟩) := by
  refine ⟨fun _ _ => rfl, ?_⟩
  intro keyOf now title rem attempt rest st text h
  simp only [runAttempts, if_neg h, parse_ai_response]

/-- C10 witness: a concrete 200-response with nonempty text succeeds on the
    first attempt, writes the cache and returns the parsed tuple. -/
theorem claim10_witness :
    runAttempts (fun s => s) 0 "Colon news" 2 0
        [ApiResponse.ok (some "제목: 대장 내시경 최신 소식"), ApiResponse.rateLimited] [] =
      ⟨parseTuple ("제목: 대장 내시경 최신 소식").data ("Colon news").data,
       [AiEvent.call 0, AiEvent.cacheWrite (parseTuple ("제목: 대장 내시경 최신 소식").data ("Colon news").data)],
       save_to_cache (fun s => s) 0 [] "Colon news"
         (parseTuple ("제목: 대장 내시경 최신 소식").data ("Colon news").data)⟩ :=
  claim10_parse_always_some.2 (fun s => s) 0 "Colon news" 1 0 [ApiResponse.rateLimited] []
    "제목: 대장 내시경 최신 소식" (by decide)

/-! ## Retry-loop trace lemmas -/

theorem callCount_cons_call (a : Nat) (evs : List AiEvent) :
    callCount (AiEvent.call a :: evs) = callCount evs + 1 := by
  simp [callCount, List.countP_cons]

theorem callCount_cons_rl (a d : Nat) (evs : List AiEvent) :
    callCount (AiEvent.rlSleep a d :: evs) = callCount evs := by
  simp [callCount, List.countP_cons]

theorem callCount_cons_fixed (d : Nat) (evs : List AiEvent) :
    callCount (AiEvent.fixedSleep d :: evs) = callCount evs := by
  simp [callCount, List.countP_cons]

theorem rlPairs_cons_call (a : Nat) (evs : List AiEvent) :
    rlPairs (AiEvent.call a :: evs) = rlPairs evs := by
  simp [rlPairs, List.filterMap_cons]

theorem rlPairs_cons_rl (a d : Nat) (evs : List AiEvent) :
    rlPairs (AiEvent.rlSleep a d :: evs) = (a, d) :: rlPairs evs := by
  simp [rlPairs, List.filterMap_cons]

theorem rlPairs_cons_fixed (d : Nat) (evs : List AiEvent) :
    rlPairs (AiEvent.fixedSleep d :: evs) = rlPairs evs := by
  simp [rlPairs, List.filterMap_cons]

theorem runAttempts_budget (keyOf : String → String) (now : ℚ) (title : String) :
    ∀ (rem attempt : Nat) (script : List ApiResponse) (st : CacheState),
      callCount (runAttempts keyOf now title rem attempt script st).events ≤ rem ∧
      (∀ p ∈ rlPairs (runAttempts keyOf now title rem attempt script st).events,
        attempt ≤ p.1 ∧ p.2 = 2 ^ p.1) ∧
      (rlPairs (runAttempts keyOf now title rem attempt script st).events).Pairwise
        (fun p q => p.1 < q.1) := by
  intro rem
  induction rem with
  | zero =>
    intro attempt script st
    exact ⟨by simp [runAttempts, callCount], by simp [runAttempts, rlPairs],
      by simp [runAttempts, rlPairs]⟩
  | succ rem ih =>
    intro attempt script st
    cases script with
    | nil =>
      exact ⟨by simp [runAttempts, callCount], by simp [runAttempts, rlPairs],
        by simp [runAttempts, rlPairs]⟩
    | cons r rest =>
      rcases ih (attempt + 1) rest st with ⟨h1, h2, h3⟩
      cases r with
      | ok b =>
        cases b with
        | some text =>
          by_cases h : text = ""
          · simp only [runAttempts, if_pos h]
            refine ⟨?_, ?_, ?_⟩
            · rw [callCount_cons_call]; omega
            · intro p hp
              rw [rlPairs_cons_call] at hp
              exact ⟨Nat.le_of_succ_le (h2 p hp).1, (h2 p hp).2⟩
            · rw [rlPairs_cons_call]; exact h3
          · simp only [runAttempts, if_neg h, parse_ai_response]
            refine ⟨?_, ?_, ?_⟩
            · simp [callCount, List.countP_cons]
            · intro p hp
              simp [rlPairs, List.filterMap_cons] at hp
            · simp [rlPairs, List.filterMap_cons]
        | none =>
          simp only [runAttempts]
          refine ⟨?_, ?_, ?_⟩
          · rw [callCount_cons_call]; omega
          · intro p hp
            rw [rlPairs_cons_call] at hp
            exact ⟨Nat.le_of_succ_le (h2 p hp).1, (h2 p hp).2⟩
          · rw [rlPairs_cons_call]; exact h3
      | rateLimited =>
        simp only [runAttempts]
        refine ⟨?_, ?_, ?_⟩
        · rw [callCount_cons_call, callCount_cons_rl]; omega
        · intro p hp
          rw [rlPairs_cons_call, rlPairs_cons_rl] at hp
          rcases List.mem_cons.mp hp with hp | hp
          · subst hp; exact ⟨Nat.le_refl _, rfl⟩
          · exact ⟨Nat.le_of_succ_le (h2 p hp).1, (h2 p hp).2⟩
        · rw [rlPairs_cons_call, rlPairs_cons_rl]
          refine List.Pairwise.cons ?_ h3
          intro q hq
          exact Nat.lt_of_succ_le (h2 q hq).1
      | otherStatus code =>
        simp only [runAttempts]
        refine ⟨?_, ?_, ?_⟩
        · rw [callCount_cons_call]; omega
        · intro p hp
          rw [rlPairs_cons_call] at hp
          exact ⟨Nat.le_of_succ_le (h2 p hp).1, (h2 p hp).2⟩
        · rw [rlPairs_cons_call]; exact h3
      | timeout =>
        simp only [runAttempts]
        refine ⟨?_, ?_, ?_⟩
        · rw [callCount_cons_call, callCount_cons_fixed]; omega
        · intro p hp
          rw [rlPairs_cons_call, rlPairs_cons_fixed] at hp
          exact ⟨Nat.le_of_succ_le (h2 p hp).1, (h2 p hp).2⟩
        · rw [rlPairs_cons_call, rlPairs_cons_fixed]; exact h3
      | otherError =>
        simp only [runAttempts]
        exact ⟨by simp [callCount, List.countP_cons], by simp [rlPairs, List.filterMap_cons],
          by simp [rlPairs, List.filterMap_cons]⟩

theorem get_ai_split (keyOf : String → String) (now : ℚ) (maxR : Nat) (st : CacheState)
    (title : String) (script : List ApiResponse) :
    (∃ st', (get_ai_summary_async keyOf now maxR st title script).1 =
        runAttempts keyOf now title maxR 0 script st') ∨
    (∃ c st', (get_ai_summary_async keyOf now maxR st title script).1 = ⟨c, [], st'⟩) := by
  rcases hc : get_cached_summary keyOf now CACHE_expiry_days st title with ⟨co, st'⟩
  cases co with
  | none =>
    left
    exact ⟨st', by simp only [get_ai_summary_async, hc]⟩
  | some c =>
    right
    exact ⟨c, st', by simp only [get_ai_summary_async, hc]⟩

/-! ## Claim theorems: retry budget and backoff (C2) -/

/-- C2: per run, at most `max_retries` HTTP requests are made; every
    rate-limit backoff recorded at (0-based) attempt `a` lasts exactly `2^a`
    seconds, taken before the next attempt is consumed; and the successive
    rate-limit waits are non-decreasing.  A 429 consumes an attempt exactly
    like any other response. -/
theorem claim2_retry_budget_and_backoff :
    ∀ (keyOf : String → String) (now : ℚ) (maxR : Nat) (st : CacheState) (title : String)
      (script : List ApiResponse),
      callCount (get_ai_summary_async keyOf now maxR st title script).1.events ≤ maxR ∧
      (∀ p ∈ rlPairs (get_ai_summary_async keyOf now maxR st title script).1.events,
        p.2 = 2 ^ p.1) ∧
      ((rlPairs (get_ai_summary_async keyOf now maxR st title script).1.events).map
          Prod.snd).Chain' (· ≤ ·) := by
  intro keyOf now maxR st title script
  rcases get_ai_split keyOf now maxR st title script with ⟨st', heq⟩ | ⟨c, st', heq⟩
  · rw [heq]
    rcases runAttempts_budget keyOf now title maxR 0 script st' with ⟨h1, h2, h3⟩
    refine ⟨h1, fun p hp => (h2 p hp).2, ?_⟩
    have hple : (rlPairs (runAttempts keyOf now title maxR 0 script st').events).Pairwise
        (fun p q => p.2 ≤ q.2) := by
      refine h3.imp_of_mem ?_
      intro a b ha hb hab
      rw [(h2 a ha).2, (h2 b hb).2]
      exact Nat.pow_le_pow_right (by omega) (Nat.le_of_lt hab)
    exact (List.pairwise_map.mpr hple).chain'
  · rw [heq]
    exact ⟨by simp [callCount], by simp [rlPairs], by simp [rlPairs]⟩

/-- C2 witness: two consecutive 429s on an empty cache consume the whole
    budget of two attempts; the first backoff is 2^0 = 1 second. -/
theorem claim2_witness :
    callCount (get_ai_summary_async (fun s => s) 0 AI_max_retries [] "Colon news"
        [ApiResponse.rateLimited, ApiResponse.rateLimited]).1.events ≤ AI_max_retries ∧
    ((0, 1) : Nat × Nat).2 = 2 ^ ((0, 1) : Nat × Nat).1 :=
  ⟨(claim2_retry_budget_and_backoff (fun s => s) 0 AI_max_retries [] "Colon news"
      [ApiResponse.rateLimited, ApiResponse.rateLimited]).1,
   (claim2_retry_budget_and_backoff (fun s => s) 0 AI_max_retries [] "Colon news"
      [ApiResponse.rateLimited, ApiResponse.rateLimited]).2.1 (0, 1) (by decide)⟩

/-! ## Claim theorems: exhaustion fallback and cache discipline (C3) -/

theorem write_notin_cons (e : AiEvent) (evs : List AiEvent)
    (he : ∀ v, e ≠ AiEvent.cacheWrite v)
    (h : ∀ v, AiEvent.cacheWrite v ∉ evs) :
    ∀ v, AiEvent.cacheWrite v ∉ e :: evs := by
  intro v hv
  rcases List.mem_cons.mp hv with hv | hv
  · exact he v hv.symm
  · exact h v hv

theorem runAttempts_no_usable (keyOf : String → String) (now : ℚ) (title : String) :
    ∀ (rem attempt : Nat) (script : List ApiResponse) (st : CacheState),
      (∀ r ∈ script.take rem, usableB r = false) →
      (runAttempts keyOf now title rem attempt script st).result = get_fallback_summary title ∧
      (∀ v, AiEvent.cacheWrite v ∉ (runAttempts keyOf now title rem attempt script st).events) ∧
      (runAttempts keyOf now title rem attempt script st).cache = st := by
  intro rem
  induction rem with
  | zero =>
    intro attempt script st _
    exact ⟨rfl, by simp [runAttempts], rfl⟩
  | succ rem ih =>
    intro attempt script st h
    cases script with
    | nil => exact ⟨rfl, by simp [runAttempts], rfl⟩
    | cons r rest =>
      have hr : usableB r = false := h r (by simp [List.take_succ_cons])
      have hrest : ∀ x ∈ rest.take rem, usableB x = false := by
        intro x hx
        exact h x (by simp [List.take_succ_cons]; right; exact hx)
      cases r with
      | ok b =>
        cases b with
        | some text =>
          have htext : text = "" := by
            by_contra hne
            simp [usableB, hne] at hr
          rcases ih (attempt + 1) rest st hrest with ⟨i1, i2, i3⟩
          simp only [runAttempts, if_pos htext]
          exact ⟨i1, write_notin_cons _ _ (fun v hv => AiEvent.noConfusion hv) i2, i3⟩
        | none =>
          rcases ih (attempt + 1) rest st hrest with ⟨i1, i2, i3⟩
          simp only [runAttempts]
          exact ⟨i1, write_notin_cons _ _ (fun v hv => AiEvent.noConfusion hv) i2, i3⟩
      | rateLimited =>
        rcases ih (attempt + 1) rest st hrest with ⟨i1, i2, i3⟩
        simp only [runAttempts]
        exact ⟨i1, write_notin_cons _ _ (fun v hv => AiEvent.noConfusion hv)
          (write_notin_cons _ _ (fun v hv => AiEvent.noConfusion hv) i2), i3⟩
      | otherStatus code =>
        rcases ih (attempt + 1) rest st hrest with ⟨i1, i2, i3⟩
        simp only [runAttempts]
        exact ⟨i1, write_notin_cons _ _ (fun v hv => AiEvent.noConfusion hv) i2, i3⟩
      | timeout =>
        rcases ih (attempt + 1) rest st hrest with ⟨i1, i2, i3⟩
        simp only [runAttempts]
        exact ⟨i1, write_notin_cons _ _ (fun v hv => AiEvent.noConfusion hv)
          (write_notin_cons _ _ (fun v hv => AiEvent.noConfusion hv) i2), i3⟩
      | otherError =>
        refine ⟨rfl, ?_, rfl⟩
        intro v hv
        simp [runAttempts] at hv

theorem runAttempts_write_from_parse (keyOf : String → String) (now : ℚ) (title : String) :
    ∀ (rem attempt : Nat) (script : List ApiResponse) (st : CacheState)
      (v : String × String × String × String),
      AiEvent.cacheWrite v ∈ (runAttempts keyOf now title rem attempt script st).events →
      ∃ text : String, text ≠ "" ∧ ApiResponse.ok (some text) ∈ script ∧
        parse_ai_response text title = some v := by
  intro rem
  induction rem with
  | zero =>
    intro attempt script st v hv
    simp [runAttempts] at hv
  | succ rem ih =>
    intro attempt script st v hv
    cases script with
    | nil => simp [runAttempts] at hv
    | cons r rest =>
      cases r with
      | ok b =>
        cases b with
        | some text =>
          by_cases h : text = ""
          · simp only [runAttempts, if_pos h] at hv
            rcases List.mem_cons.mp hv with hv | hv
            · exact AiEvent.noConfusion hv
            · rcases ih (attempt + 1) rest st v hv with ⟨t, ht, hmem, hp⟩
              exact ⟨t, ht, List.mem_cons_of_mem _ hmem, hp⟩
          · simp only [runAttempts, if_neg h, parse_ai_response] at hv
            rcases List.mem_cons.mp hv with hv | hv
            · exact AiEvent.noConfusion hv
            · rcases List.mem_cons.mp hv with hv | hv
              · have hv' : v = parseTuple text.data title.data := by
                  injection hv
                refine ⟨text, h, List.mem_cons_self _ _, ?_⟩
                rw [hv']
                rfl
              · simp at hv
        | none =>
          simp only [runAttempts] at hv
          rcases List.mem_cons.mp hv with hv | hv
          · exact AiEvent.noConfusion hv
          · rcases ih (attempt + 1) rest st v hv with ⟨t, ht, hmem, hp⟩
            exact ⟨t, ht, List.mem_cons_of_mem _ hmem, hp⟩
      | rateLimited =>
        simp only [runAttempts] at hv
        rcases List.mem_cons.mp hv with hv | hv
        · exact AiEvent.noConfusion hv
        · rcases List.mem_cons.mp hv with hv | hv
          · exact AiEvent.noConfusion hv
          · rcases ih (attempt + 1) rest st v hv with ⟨t, ht, hmem, hp⟩
            exact ⟨t, ht, List.mem_cons_of_mem _ hmem, hp⟩
      | otherStatus code =>
        simp only [runAttempts] at hv
        rcases List.mem_cons.mp hv with hv | hv
        · exact AiEvent.noConfusion hv
        · rcases ih (attempt + 1) rest st v hv with ⟨t, ht, hmem, hp⟩
          exact ⟨t, ht, List.mem_cons_of_mem _ hmem, hp⟩
      | timeout =>
        simp only [runAttempts] at hv
        rcases List.mem_cons.mp hv with hv | hv
        · exact AiEvent.noConfusion hv
        · rcases List.mem_cons.mp hv with hv | hv
          · exact AiEvent.noConfusion hv
          · rcases ih (attempt + 1) rest st v hv with ⟨t, ht, hmem, hp⟩
            exact ⟨t, ht, List.mem_cons_of_mem _ hmem, hp⟩
      | otherError =>
        simp only [runAttempts] at hv
        rcases List.mem_cons.mp hv with hv | hv
        · exact AiEvent.noConfusion hv
        · simp at hv

/-- C3: if the cache missed and no response within the `max_retries` budget is
    usable (HTTP 200 with nonempty text), the client returns the fallback
    annotation synthesized from the title, performs no cache write, and
    leaves the cache as the lookup left it; moreover, unconditionally, every
    cache write during a run stores the parse of some 200-response of the
    script (only genuine API-derived annotations are cached). -/
theorem claim3_exhaustion_fallback_never_cached :
    (∀ (keyOf : String → String) (now : ℚ) (maxR : Nat) (st st' : CacheState) (title : String)
        (script : List ApiResponse),
      get_cached_summary keyOf now CACHE_expiry_days st title = (none, st') →
      (∀ r ∈ script.take maxR, usableB r = false) →
      (get_ai_summary_async keyOf now maxR st title script).1.result =
          get_fallback_summary title ∧
        (∀ v, AiEvent.cacheWrite v ∉
          (get_ai_summary_async keyOf now maxR st title script).1.events) ∧
        (get_ai_summary_async keyOf now maxR st title script).1.cache = st') ∧
    (∀ (keyOf : String → String) (now : ℚ) (maxR : Nat) (st : CacheState) (title : String)
        (script : List ApiResponse) (v : String × String × String × String),
      AiEvent.cacheWrite v ∈ (get_ai_summary_async keyOf now maxR st title script).1.events →
      ∃ text : String, text ≠ "" ∧ ApiResponse.ok (some text) ∈ script ∧
        parse_ai_response text title = some v) := by
  constructor
  · intro keyOf now maxR st st' title script h1 h2
    simp only [get_ai_summary_async, h1]
    exact runAttempts_no_usable keyOf now title maxR 0 script st' h2
  · intro keyOf now maxR st title script v hv
    rcases get_ai_split keyOf now maxR st title script with ⟨st', heq⟩ | ⟨c, st', heq⟩
    · rw [heq] at hv
      exact runAttempts_write_from_parse keyOf now title maxR 0 script st' v hv
    · rw [heq] at hv
      simp at hv

/-- C3 witness: a 429 followed by a 500 exhausts the two-attempt budget; the
    client returns the title-only fallback, writes nothing to the cache, and
    the cache directory is unchanged. -/
theorem claim3_witness :
    (get_ai_summary_async (fun s => s) 0 AI_max_retries [] "Colon news"
        [ApiResponse.rateLimited, ApiResponse.otherStatus 500]).1.result =
      get_fallback_summary "Colon news" ∧
    (get_ai_summary_async (fun s => s) 0 AI_max_retries [] "Colon news"
        [ApiResponse.rateLimited, ApiResponse.otherStatus 500]).1.cache = [] ∧
    AiEvent.cacheWrite (get_fallback_summary "Colon news") ∉
      (get_ai_summary_async (fun s => s) 0 AI_max_retries [] "Colon news"
        [ApiResponse.rateLimited, ApiResponse.otherStatus 500]).1.events :=
  ⟨(claim3_exhaustion_fallback_never_cached.1 (fun s => s) 0 AI_max_retries [] [] "Colon news"
      [ApiResponse.rateLimited, ApiResponse.otherStatus 500] rfl (by decide)).1,
   (claim3_exhaustion_fallback_never_cached.1 (fun s => s) 0 AI_max_retries [] [] "Colon news"
      [ApiResponse.rateLimited, ApiResponse.otherStatus 500] rfl (by decide)).2.2,
   (claim3_exhaustion_fallback_never_cached.1 (fun s => s) 0 AI_max_retries [] [] "Colon news"
      [ApiResponse.rateLimited, ApiResponse.otherStatus 500] rfl (by decide)).2.1
     (get_fallback_summary "Colon news")⟩

/-! ## Claim theorems: error taxonomy in the retry loop (C8) -/

/-- C8 counterexample: the claim says a transient network error is retried
    after a short fixed delay; in the code only `asyncio.TimeoutError` is —
    any other exception hits the bare `except Exception: break`.  Here a
    transient error on attempt 0 abandons the run after a single call and
    returns the fallback, even though a usable 200-response was next in line
    within the two-attempt budget. -/
theorem claim8_cex :
    runAttempts (fun s => s) 0 "Colon polyp news" AI_max_retries 0
        [ApiResponse.otherError,
         ApiResponse.ok (some "제목: 용종 절제술 관련 새로운 연구 결과입니다")] [] =
      ⟨get_fallback_summary "Colon polyp news", [AiEvent.call 0], []⟩ ∧
    usableB (ApiResponse.ok (some "제목: 용종 절제술 관련 새로운 연구 결과입니다")) = true := by
  exact ⟨rfl, rfl⟩

/-- C8 amended: a per-attempt timeout sleeps the fixed one-second delay and
    retries, consuming the next attempt of the budget (in particular a
    timeout followed by a usable response still succeeds); any other raised
    exception (transient network errors included) breaks out of the loop and
    returns the fallback immediately, regardless of the remaining budget. -/
theorem claim8_amended :
    (∀ (keyOf : String → String) (now : ℚ) (title : String) (rem attempt : Nat)
        (rest : List ApiResponse) (st : CacheState),
      runAttempts keyOf now title (rem + 1) attempt (ApiResponse.timeout :: rest) st =
        ⟨(runAttempts keyOf now title rem (attempt + 1) rest st).result,
         AiEvent.call attempt :: AiEvent.fixedSleep 1 ::
           (runAttempts keyOf now title rem (attempt + 1) rest st).events,
         (runAttempts keyOf now title rem (attempt + 1) rest st).cache⟩) ∧
    (∀ (keyOf : String → String) (now : ℚ) (title : String) (rem attempt : Nat)
        (rest : List ApiResponse) (st : CacheState),
      runAttempts keyOf now title (rem + 1) attempt (ApiResponse.otherError :: rest) st =
        ⟨get_fallback_summary title, [AiEvent.call attempt], st⟩) ∧
    (∀ (keyOf : String → String) (now : ℚ) (title : String) (rem attempt : Nat)
        (rest : List ApiResponse) (st : CacheState) (text : String),
      text ≠ "" →
      runAttempts keyOf now title (rem + 2) attempt
          (ApiResponse.timeout :: ApiResponse.ok (some text) :: rest) st =
        ⟨parseTuple text.data title.data,
         [AiEvent.call attempt, AiEvent.fixedSleep 1, AiEvent.call (attempt + 1),
          AiEvent.cacheWrite (parseTuple text.data title.data)],
         save_to_cache keyOf now st title (parseTuple text.data title.data)⟩) := by
  refine ⟨fun _ _ _ _ _ _ _ => rfl, fun _ _ _ _ _ _ _ => rfl, ?_⟩
  intro keyOf now title rem attempt rest st text h
  simp only [runAttempts, if_neg h, parse_ai_response]

/-- C8 amended witness: a timeout then a usable response — the run backs off
    one second, retries, and succeeds on the second attempt. -/
theorem claim8_witness :
    runAttempts (fun s => s) 0 "Colon news" 2 0
        [ApiResponse.timeout, ApiResponse.ok (some "제목: 대장 건강 관리 요령 안내")] [] =
      ⟨parseTuple ("제목: 대장 건강 관리 요령 안내").data ("Colon news").data,
       [AiEvent.call 0, AiEvent.fixedSleep 1, AiEvent.call 1,
        AiEvent.cacheWrite (parseTuple ("제목: 대장 건강 관리 요령 안내").data ("Colon news").data)],
       save_to_cache (fun s => s) 0 [] "Colon news"
         (parseTuple ("제목: 대장 건강 관리 요령 안내").data ("Colon news").data)⟩ :=
  claim8_amended.2.2 (fun s => s) 0 "Colon news" 0 0 []
    [] "제목: 대장 건강 관리 요령 안내" (by decide)

/-! ## Claim theorems: pipeline order of dedup vs annotation (C9) -/

theorem annotateAll_fst (keyOf : String → String) (now : ℚ) (maxR : Nat) :
    ∀ (es : List Entry) (scripts : List (List ApiResponse)) (st : CacheState),
      (annotateAll keyOf now maxR es scripts st).annotated.map Prod.fst = es := by
  intro es
  induction es with
  | nil => intro scripts st; rfl
  | cons e es ih =>
    intro scripts st
    simp only [annotateAll, List.map_cons]
    rw [ih]

/-- C9 counterexample: the claim says no annotation work is done for an
    article the deduplication filter drops; in the code the deduplication
    runs only in `main_async`, after all entries were annotated.  Two
    entries with the same title are both annotated (two invocations, two
    HTTP calls) although deduplication then drops the second. -/
theorem claim9_cex :
    (process_entries_model (fun s => s) 0 2 5
        [⟨"New colon screening data", "u1"⟩, ⟨"New colon screening data", "u2"⟩]
        [[ApiResponse.otherError], [ApiResponse.otherError]] []).annotated.map
        (fun p => p.1.link) = ["u1", "u2"] ∧
    (process_entries_model (fun s => s) 0 2 5
        [⟨"New colon screening data", "u1"⟩, ⟨"New colon screening data", "u2"⟩]
        [[ApiResponse.otherError], [ApiResponse.otherError]] []).calls = 2 ∧
    (main_model (fun s => s) 0 2 5
        [⟨"New colon screening data", "u1"⟩, ⟨"New colon screening data", "u2"⟩]
        [[ApiResponse.otherError], [ApiResponse.otherError]] []).1.map News.url = ["u1"] := by
  refine ⟨by decide, by decide, by decide⟩

/-- C9 amended: deduplication runs after annotation, not before: every valid
    collected entry (within the per-feed cap) is annotated regardless of
    near-duplication, and the pipeline result is `remove_duplicates` applied
    to the already-annotated list. -/
theorem claim9_amended :
    ∀ (keyOf : String → String) (now : ℚ) (maxR maxNews : Nat) (entries : List Entry)
      (scripts : List (List ApiResponse)) (st : CacheState),
      (main_model keyOf now maxR maxNews entries scripts st).1 =
        remove_duplicates
          ((process_entries_model keyOf now maxR maxNews entries scripts st).annotated.map
            toNews) ∧
      (process_entries_model keyOf now maxR maxNews entries scripts st).annotated.map
          Prod.fst = validEntries maxNews entries := by
  intro keyOf now maxR maxNews entries scripts st
  exact ⟨rfl, annotateAll_fst keyOf now maxR (validEntries maxNews entries) scripts st⟩
